import Mathlib

/-
Verification of the survey_maker document-assembly engine.

Shallow embedding of src/survey_maker/survey_document.py and
src/survey_maker/latex_classes.py. The embedding models the data that the
engine reads (modules, questions, colorize categories, filters), the count
accumulator (a Python collections.Counter over string keys), the colorize
rule engine, the redirection resolver and the traversal of
SurveyDocument.add_all_modules / add_module / add_question. Markup emission
is abstracted away except for one observable that the claims need: the color
scope a question body is wrapped in, recorded as a trace. Python exceptions
(TypeError from Counter.update on None, IndexError from
string.ascii_lowercase, KeyError, ValueError from the color-key check) are
modelled with Except; the error string names the Python exception.
-/

set_option autoImplicit false

namespace SurveyMaker

/-- stripU s removes every underscore, the model of re.sub with pattern _ and
an empty replacement. -/
def stripU (s : String) : String :=
  String.mk (s.data.filter (fun c => c ≠ '_'))

/-- label_question from latex_classes.py: joins quest and the key with a
colon, no character stripping. -/
def label_question (key : String) : String :=
  "quest:" ++ key

/-- label_module from latex_classes.py: joins mod and the key with a colon
and then removes every underscore from the joined string. -/
def label_module (key : String) : String :=
  stripU ("mod:" ++ key)

/-- label_module_section from latex_classes.py: joins modsec and the
lower-cased title, then removes underscores, whitespace and slashes. -/
def label_module_section (title : String) : String :=
  String.mk (("modsec:" ++ title.toLower).data.filter
    (fun c => c ≠ '_' ∧ c ≠ ' ' ∧ c ≠ '\t' ∧ c ≠ '\n' ∧ c ≠ '/'))

/-- firstSegment s is the part of s before the first colon, the whole of s
when there is no colon: the model of the Python expression with str.split on
a colon followed by taking element zero. -/
def firstSegment (s : String) : String :=
  String.mk (s.data.takeWhile (fun c => c ≠ ':'))

/-- The filter field of a question: condition is the literal choice value
that triggers the redirection, goto the target reference string. Both keys
are accessed with mandatory indexing in the source, hence plain fields. -/
structure FilterSpec where
  condition : String
  goto : String
  deriving DecidableEq, Inhabited

/-- The phrase built inside get_redirection_string_for_filter once the
choice guard has passed: the goto prefix picks the category word, the goto
loses its underscores for every prefix other than quest, and an unknown
prefix drops the category word and echoes the processed goto. -/
def redirectionPhrase (f : FilterSpec) : String :=
  let ref_cat := firstSegment f.goto
  let category : Option String :=
    if ref_cat = "quest" then some "vraag"
    else if ref_cat = "mod" then some "module"
    else if ref_cat = "modsec" then some "module sectie"
    else none
  let goto := if ref_cat ≠ "quest" then stripU f.goto else f.goto
  match category with
  | some c => "$\\rightarrow$ Ga naar " ++ c ++ " \\ref\x7b" ++ goto ++ "\x7d"
  | none => "$\\rightarrow$ Ga naar " ++ goto

/-- SurveyDocument.get_redirection_string_for_filter. Python truth of the
guard: filter_prop is None gives the empty string; otherwise the phrase is
built when the condition equals the choice or the choice is None. -/
def get_redirection_string_for_filter (filter_prop : Option FilterSpec)
    (choice : Option String) : String :=
  match filter_prop with
  | none => ""
  | some f =>
    if some f.condition = choice ∨ choice = none then redirectionPhrase f
    else ""

example : get_redirection_string_for_filter
    (some { condition := "Yes", goto := "quest:q7" }) (some "Yes")
    = "$\\rightarrow$ Ga naar vraag \\ref\x7bquest:q7\x7d" := by rfl

example : get_redirection_string_for_filter
    (some { condition := "Yes", goto := "quest:q7" }) (some "No") = "" := by rfl

example : label_module "small_business" = "mod:smallbusiness" := by rfl

/-- The value of a colorize-trigger field on a module, section or question
node. In the yaml data this is a bool, a goto string, or a nested mapping of
which the engine reads the refers_to and count entries. -/
inductive TrigVal where
  | boolV : Bool → TrigVal
  | strV : String → TrigVal
  | dictV : Option String → Option Nat → TrigVal
  deriving DecidableEq, Inhabited

/-- Python truthiness of a trigger value: False and the empty string are
falsy, a mapping is falsy exactly when it is empty (here: when it carries
neither a refers_to nor a count entry, the only entries the engine reads). -/
def TrigVal.truthy : TrigVal → Bool
  | TrigVal.boolV b => b
  | TrigVal.strV s => s ≠ ""
  | TrigVal.dictV r c => r.isSome || c.isSome

/-- A mapping-shaped trigger value, the isinstance dict test of the source. -/
def TrigVal.isDict : TrigVal → Bool
  | TrigVal.dictV _ _ => true
  | _ => false

/-- One declared colorize category (one entry of the colorize chapter of the
general section). Optional yaml keys read through dict.get with a default
are fields with that default; label is read with mandatory indexing on the
paths the claims exercise, hence a plain field. -/
structure ColProp where
  color : String
  label : String := ""
  add_this : Bool := true
  review_only : Bool := false
  dvz_only : Bool := false
  apply_color : Bool := true
  subtract_count_from_total : Bool := false
  goto_condition_label : Option String := none
  deriving DecidableEq, Inhabited

/-- The per-document configuration the engine consults: the ordered colorize
declarations and the two mode flags. -/
structure Config where
  colorize : List (String × ColProp) := []
  review_references : Bool := false
  dvz_references : Bool := false
  deriving DecidableEq, Inhabited

/-- SurveyDocument.process_this_colorize: add_this defaults to true and is
forced off when review_only holds without review mode or dvz_only holds
without dvz mode. -/
def process_this_colorize (cfg : Config) (cp : ColProp) : Bool :=
  cp.add_this && !(cp.review_only && !cfg.review_references)
    && !(cp.dvz_only && !cfg.dvz_references)

/-- Ordered-dictionary lookup: the value at the first entry with the given
key. -/
def alookup {α : Type} : List (String × α) → String → Option α
  | [], _ => none
  | (k1, v) :: rest, k => if k1 = k then some v else alookup rest k

/-- A section field of a question: starts a new visual section inside a
module; triggers are the per-category goto fields of the section. -/
structure SectionBreak where
  title : String := ""
  triggers : List (String × TrigVal) := []
  deriving DecidableEq, Inhabited

/-- The quantity_label field of a quantity question: a string or a list of
strings. -/
inductive QuantityLabel where
  | qstr : String → QuantityLabel
  | qlist : List String → QuantityLabel
  deriving DecidableEq, Inhabited

/-- One question of a module. Fields the engine reads; type none models an
absent type key (the source defaults it to quantity); sect is the section
key (renamed: section is reserved in Lean); triggers are the per-category
colorize fields; dvz records whether a dvz info block is present. Emission
only fields (question text, widths, infos) are kept only where a claim needs
them. -/
structure QuestionSpec where
  question : String := ""
  type : Option String := none
  add_this : Bool := true
  sect : Option SectionBreak := none
  filter : Option FilterSpec := none
  increase_counter : Option String := none
  triggers : List (String × TrigVal) := []
  dvz : Bool := false
  quantity_label : QuantityLabel := QuantityLabel.qstr ""
  choices : Option (List String) := none
  choicelines : List String := []
  question_lines : List String := []
  range_labels : List String := []
  deriving DecidableEq, Inhabited

/-- One module of the questionnaire. title and questions are required keys
in the source; triggers are the module-level per-category colorize fields. -/
structure ModuleSpec where
  title : String := ""
  questions : List (String × QuestionSpec) := []
  add_this : Bool := true
  exclude_from_count : Bool := false
  triggers : List (String × TrigVal) := []
  deriving DecidableEq, Inhabited

/-- The count accumulator is a Python collections.Counter: an
insertion-ordered mapping from string keys to integers. All updates of the
engine add non-negative amounts, so values are Nat. -/
abbrev Counter := List (String × Nat)

/-- Counter read: a missing key counts as zero. -/
def cget (c : Counter) (k : String) : Nat :=
  (alookup c k).getD 0

/-- Counter.update with a one-entry mapping: adds v to the entry of k when k
is present, otherwise appends a new entry k with value v (dict insertion
order puts new keys at the end). -/
def cupdate : Counter → String → Nat → Counter
  | [], k, v => [(k, v)]
  | (k1, v1) :: rest, k, v =>
    if k1 = k then (k1, v1 + v) :: rest else (k1, v1) :: cupdate rest k v

/-- Update of the per-module counter of module mk; a no-op when mk has no
entry, which the traversal never lets happen for counted modules. -/
def pmUpdate (pm : List (String × Counter)) (mk k : String) (v : Nat) :
    List (String × Counter) :=
  pm.map (fun p => if p.1 = mk then (p.1, cupdate p.2 k v) else p)

/-- Assignment into the ordered dict of per-module counters: replaces the
entry of mk when present, otherwise appends it. -/
def pmSet (pm : List (String × Counter)) (mk : String) (c : Counter) :
    List (String × Counter) :=
  if (alookup pm mk).isSome then
    pm.map (fun p => if p.1 = mk then (p.1, c) else p)
  else pm ++ [(mk, c)]

/-- The initial global counter of SurveyDocument.__init__: modules,
questions and questions_incl_choices at zero, in that insertion order. -/
def initCounts : Counter :=
  [("modules", 0), ("questions", 0), ("questions_incl_choices", 0)]

/-- The per-module counter initialised in add_all_modules: the two reserved
question keys at zero, then a zero entry for every colorize category whose
raw add_this flag holds (this spot checks only add_this, not the full
eligibility gate) and whose key is not dvz. -/
def initModuleCounter (cfg : Config) : Counter :=
  (cfg.colorize.filter (fun p => p.2.add_this && p.1 ≠ "dvz")).foldl
    (fun c p => cupdate c p.1 0)
    [("questions", 0), ("questions_incl_choices", 0)]

/-- Loop body of SurveyDocument.create_color_latex_command over the ordered
colorize declarations: an ineligible category is skipped before anything
else; an eligible key containing an underscore raises ValueError; an
eligible key other than dvz gets a zero entry in the global counter. -/
def colorCommandLoop (cfg : Config) : Counter → List (String × ColProp) →
    Except String Counter
  | c, [] => Except.ok c
  | c, (ck, cp) :: rest =>
    if ¬ process_this_colorize cfg cp then colorCommandLoop cfg c rest
    else if ck.data.contains '_' then
      Except.error "ValueError: No _ allowed in the color keys"
    else colorCommandLoop cfg (if ck ≠ "dvz" then cupdate c ck 0 else c) rest

/-- SurveyDocument.create_color_latex_command restricted to its counter
effect and its ValueError; the latex newcommand emission is abstracted. -/
def create_color_latex_command (cfg : Config) (c : Counter) :
    Except String Counter :=
  colorCommandLoop cfg c cfg.colorize

/-- Loop of SurveyDocument.get_color_first_match. The loop variable of the
Python for statement stays bound after the loop, so when no eligible
category matches, the returned key is the last declared key, not None; the
accumulator last carries that. A matched category with apply_color false
yields the neutral color black. -/
def firstMatchAux (cfg : Config) (trigs : List (String × TrigVal)) :
    List (String × ColProp) → Option String → Option String × Option String
  | [], last => (none, last)
  | (ck, cp) :: rest, _ =>
    if ((alookup trigs ck).map TrigVal.truthy).getD false
        && process_this_colorize cfg cp then
      (some (if cp.apply_color then cp.color else "black"), some ck)
    else firstMatchAux cfg trigs rest (some ck)

/-- SurveyDocument.get_color_first_match. -/
def get_color_first_match (cfg : Config) (q : QuestionSpec) :
    Option String × Option String :=
  firstMatchAux cfg q.triggers cfg.colorize none

/-- The colored refers-to phrase composed in get_refers_to_label. -/
def refersPhrase (ck : String) (cp : ColProp) (r : String) : String :=
  "\\color" ++ stripU ck ++ "\x7b(" ++ cp.label ++ ": $\\rightarrow$ \x7b"
    ++ r ++ "\x7d)\x7d"

/-- Loop of SurveyDocument.get_refers_to_label: scans the categories in
order; a truthy mapping-shaped trigger of an eligible category is inspected
for a refers_to entry; only a found refers_to breaks the loop. As in
firstMatchAux the returned key falls back to the last iterated key. -/
def refersAux (cfg : Config) (trigs : List (String × TrigVal)) :
    List (String × ColProp) → Option String → Option String × Option String
  | [], last => (none, last)
  | (ck, cp) :: rest, _ =>
    match alookup trigs ck with
    | some (TrigVal.dictV r c) =>
      if (TrigVal.dictV r c).truthy && process_this_colorize cfg cp then
        match r with
        | some rv => (some (refersPhrase ck cp rv), some ck)
        | none => refersAux cfg trigs rest (some ck)
      else refersAux cfg trigs rest (some ck)
    | _ => refersAux cfg trigs rest (some ck)

/-- SurveyDocument.get_refers_to_label. -/
def get_refers_to_label (cfg : Config) (q : QuestionSpec) :
    Option String × Option String :=
  refersAux cfg q.triggers cfg.colorize none

/-- Result of SurveyDocument.get_colorize_properties on a module. -/
structure ModTrigger where
  ckey : Option String
  color_name : Option String
  goto : Option TrigVal
  glabel : Option String
  deriving DecidableEq, Inhabited

/-- Loop of SurveyDocument.get_colorize_properties: the first eligible
category with a truthy module field wins; with no winner the color is None
while the returned key is again the last iterated key. -/
def gcpAux (cfg : Config) (trigs : List (String × TrigVal)) :
    List (String × ColProp) → Option String → ModTrigger
  | [], last => ⟨last, none, none, none⟩
  | (ck, cp) :: rest, _ =>
    if ¬ process_this_colorize cfg cp then gcpAux cfg trigs rest (some ck)
    else if ((alookup trigs ck).map TrigVal.truthy).getD false then
      ⟨some ck, some cp.color, alookup trigs ck, cp.goto_condition_label⟩
    else gcpAux cfg trigs rest (some ck)

/-- SurveyDocument.get_colorize_properties. -/
def get_colorize_properties (cfg : Config) (m : ModuleSpec) : ModTrigger :=
  gcpAux cfg m.triggers cfg.colorize none

/-- The section scan at the top of the question loop of add_module: resets
the whole-section color and then takes the color of the first eligible
category that has any field on the section, provided the module itself has
no color key. -/
def sectionColorAux (cfg : Config) (mColorKey : Option String)
    (trigs : List (String × TrigVal)) :
    List (String × ColProp) → Option String
  | [] => none
  | (ck, cp) :: rest =>
    if ¬ process_this_colorize cfg cp || mColorKey.isSome then
      sectionColorAux cfg mColorKey trigs rest
    else
      match alookup trigs ck with
      | none => sectionColorAux cfg mColorKey trigs rest
      | some _ => some cp.color

/-- Color forced on a whole section, from the section block of add_module. -/
def sectionColor (cfg : Config) (mColorKey : Option String)
    (sec : SectionBreak) : Option String :=
  sectionColorAux cfg mColorKey sec.triggers cfg.colorize

/-- The allow list QUESTION_TYPES of survey_document.py. -/
def QUESTION_TYPES : List String :=
  ["quantity", "choices", "group", "textbox", "range", "rangegroup"]

/-- Count effect of SurveyDocument.add_quantity_question. A string label is
wrapped in a one-element list, so it always yields one; a list label yields
its length with a minimum of one, and indexing string.ascii_lowercase raises
IndexError past twenty-six entries. -/
def add_quantity_question : QuantityLabel → Except String Nat
  | QuantityLabel.qstr _ => Except.ok 1
  | QuantityLabel.qlist l =>
    if l.length > 26 then Except.error "IndexError: string index out of range"
    else Except.ok (if l.length = 0 then 1 else l.length)

/-- Count effect of SurveyDocument.add_choice_group_question: one count per
enumerated choice line, one when the list is empty; the a) b) enumeration
indexes string.ascii_lowercase and raises IndexError past twenty-six
lines. -/
def add_choice_group_question (choice_lines : List String) :
    Except String Nat :=
  if choice_lines.length > 26 then
    Except.error "IndexError: string index out of range"
  else Except.ok (if choice_lines.length = 0 then 1 else choice_lines.length)

/-- Count effect of SurveyDocument.add_range_group_question: one count per
question line with no minimum (an empty list yields zero); the enumeration
again raises IndexError past twenty-six lines. The range items only get a
truncation warning and do not affect the count. -/
def add_range_group_question (question_lines range_items : List String) :
    Except String Nat :=
  if question_lines.length > 26 then
    Except.error "IndexError: string index out of range"
  else Except.ok question_lines.length

/-- SurveyDocument.add_question restricted to its returned count. A type
outside QUESTION_TYPES is logged and the function returns the Python value
None, modelled as ok none. Otherwise the per-type branch runs (the elif
chain of the source, whose final AssertionError arm is unreachable) and the
dvz block afterwards raises KeyError when a dvz info block is present in dvz
mode without a declared dvz category. -/
def add_question (cfg : Config) (q : QuestionSpec) :
    Except String (Option Nat) :=
  let qt := q.type.getD "quantity"
  if ¬ QUESTION_TYPES.contains qt then Except.ok none
  else
    let body : Except String Nat :=
      if qt = "quantity" then add_quantity_question q.quantity_label
      else if qt = "choices" then Except.ok 1
      else if qt = "group" then add_choice_group_question q.choicelines
      else if qt = "textbox" then Except.ok 1
      else if qt = "range" then Except.ok 1
      else if qt = "rangegroup" then
        add_range_group_question q.question_lines q.range_labels
      else Except.error "AssertionError: question type not known"
    match body with
    | Except.error e => Except.error e
    | Except.ok n =>
      if q.dvz && cfg.dvz_references && ¬ (alookup cfg.colorize "dvz").isSome
      then Except.error "KeyError: dvz"
      else Except.ok (some n)

/-- Python truthiness of an optional color string. -/
def optTruthy : Option String → Bool
  | none => false
  | some s => s ≠ ""

/-- The color scope a question body is wrapped in, lines 689 to 694 of
survey_document.py: when either color is truthy the section color is
preferred, otherwise the local color; none means no colorize scope. -/
def wrapColor (color_all_in_section color_local : Option String) :
    Option String :=
  if optTruthy color_local || optTruthy color_all_in_section then
    if optTruthy color_all_in_section then color_all_in_section
    else color_local
  else none

/-- The count override after add_question: the source indexes the question
properties at the refers-to key and reads a count entry, with KeyError and
TypeError swallowed. A None key or a non-mapping or absent trigger keeps the
computed count. -/
def countOverride (q : QuestionSpec) (refers_to_key : Option String)
    (n : Option Nat) : Option Nat :=
  match refers_to_key with
  | none => n
  | some rk =>
    match alookup q.triggers rk with
    | some (TrigVal.dictV _ (some c)) => some c
    | _ => n

/-- The counter updates at the end of the question loop of add_module for a
counted question of weight nv: one to the reserved question key, nv to the
reserved total key, nv to the matched color category unless it is dvz, nv to
a distinct refers-to category, and the increase_counter extra of one to the
total and to the named key; all mirrored per module. -/
def countQuestion (mk : String)
    (color_local color_key refers_to_label refers_to_key : Option String)
    (inc : Option String) (nv : Nat) (c : Counter)
    (pm : List (String × Counter)) : Counter × List (String × Counter) :=
  let c1 := cupdate c "questions" 1
  let p1 := pmUpdate pm mk "questions" 1
  let c2 := cupdate c1 "questions_incl_choices" nv
  let p2 := pmUpdate p1 mk "questions_incl_choices" nv
  let cp3 :=
    if color_local.isSome && ¬ (color_key = some "dvz") then
      (cupdate c2 (color_key.getD "") nv,
        pmUpdate p2 mk (color_key.getD "") nv)
    else (c2, p2)
  let cp4 :=
    if refers_to_label.isSome && ¬ (refers_to_key = color_key) then
      (cupdate cp3.1 (refers_to_key.getD "") nv,
        pmUpdate cp3.2 mk (refers_to_key.getD "") nv)
    else cp3
  match inc with
  | none => cp4
  | some ic =>
    (cupdate (cupdate cp4.1 "questions_incl_choices" 1) ic 1,
      pmUpdate (pmUpdate cp4.2 mk "questions_incl_choices" 1) mk ic 1)

/-- The build state: the global counter, the ordered per-module counters and
the trace of color scopes wrapped around question bodies. -/
structure BuildState where
  counts : Counter
  pm : List (String × Counter)
  wraps : List (String × Option String)
  deriving DecidableEq, Inhabited

/-- State of one add_module call: the build state plus the mutable
color_all_in_section flag, which a section block rewrites. -/
structure MState where
  bs : BuildState
  cas : Option String
  deriving DecidableEq, Inhabited

/-- One iteration of the question loop of SurveyDocument.add_module: section
handling first (also for questions that are then skipped), then the add_this
skip, color resolution, the question body with its wrap, the count override
and the counter updates. A weight of None reaching Counter.update raises
TypeError. -/
def questionStep (cfg : Config) (mk : String)
    (mColorKey mColorName : Option String) (exclude : Bool) (st : MState)
    (kq : String × QuestionSpec) : Except String MState :=
  let q := kq.2
  let cas :=
    match q.sect with
    | none => st.cas
    | some sec => sectionColor cfg mColorKey sec
  if ¬ q.add_this then Except.ok ⟨st.bs, cas⟩
  else
    let lc :=
      if mColorKey.isNone then get_color_first_match cfg q
      else (mColorName, mColorKey)
    let rt := get_refers_to_label cfg q
    let col := wrapColor cas lc.1
    match add_question cfg q with
    | Except.error e => Except.error e
    | Except.ok n0 =>
      let n := countOverride q rt.2 n0
      let wraps := st.bs.wraps ++ [(kq.1, col)]
      if exclude then Except.ok ⟨⟨st.bs.counts, st.bs.pm, wraps⟩, cas⟩
      else
        match n with
        | none =>
          Except.error
            "TypeError: unsupported operand types for + : NoneType and int"
        | some nv =>
          let cp := countQuestion mk lc.1 lc.2 rt.1 rt.2 q.increase_counter
            nv st.bs.counts st.bs.pm
          Except.ok ⟨⟨cp.1, cp.2, wraps⟩, cas⟩

/-- The question loop of add_module. -/
def foldQuestions (cfg : Config) (mk : String)
    (mColorKey mColorName : Option String) (exclude : Bool) :
    List (String × QuestionSpec) → MState → Except String MState
  | [], st => Except.ok st
  | kq :: rest, st =>
    match questionStep cfg mk mColorKey mColorName exclude st kq with
    | Except.error e => Except.error e
    | Except.ok st1 => foldQuestions cfg mk mColorKey mColorName exclude rest st1

/-- One iteration of the module loop of SurveyDocument.add_all_modules: skip
a disabled module; for a counted module add one to the modules key and
install a fresh per-module counter; resolve the module-level colorize
trigger and run the question loop of add_module, with the module color keys
passed only when a color was found. color_all_in_section starts False for
every add_module call. -/
def moduleStep (cfg : Config) (bs : BuildState) (km : String × ModuleSpec) :
    Except String BuildState :=
  let mk := km.1
  let m := km.2
  if ¬ m.add_this then Except.ok bs
  else
    let exclude := m.exclude_from_count
    let bs1 : BuildState :=
      if ¬ exclude then
        ⟨cupdate bs.counts "modules" 1,
          pmSet bs.pm mk (initModuleCounter cfg), bs.wraps⟩
      else bs
    let g := get_colorize_properties cfg m
    let mck := if g.color_name.isSome then g.ckey else none
    let mcn := g.color_name
    match foldQuestions cfg mk mck mcn exclude m.questions ⟨bs1, none⟩ with
    | Except.error e => Except.error e
    | Except.ok st => Except.ok st.bs

/-- The module loop of SurveyDocument.add_all_modules. -/
def add_all_modules (cfg : Config) :
    List (String × ModuleSpec) → BuildState → Except String BuildState
  | [], bs => Except.ok bs
  | km :: rest, bs =>
    match moduleStep cfg bs km with
    | Except.error e => Except.error e
    | Except.ok bs1 => add_all_modules cfg rest bs1

/-- The full document build as far as counters and wraps are concerned:
SurveyDocument.__init__ initialises the counter, runs
create_color_latex_command (which can raise before any module is touched)
and then add_all_modules. The explanation block and the report only read
state. -/
def buildCounts (cfg : Config) (questionnaire : List (String × ModuleSpec)) :
    Except String BuildState :=
  match create_color_latex_command cfg initCounts with
  | Except.error e => Except.error e
  | Except.ok c0 => add_all_modules cfg questionnaire ⟨c0, [], []⟩

/-- The subtract_count_from_total flag of the colorize declaration of a key;
False when the key is not a declared category (the KeyError arm of the
source). -/
def subtract_flag (cfg : Config) (key : String) : Bool :=
  match alookup cfg.colorize key with
  | none => false
  | some cp => cp.subtract_count_from_total

/-- Rows of the first table of SurveyDocument.create_summary_table: one row
per global counter entry except the main-question key; a category flagged
subtract_count_from_total renders the total count minus its count, any other
key renders its raw count. The key stands in for the rendered display name,
which is pure emission. -/
def global_summary_rows (cfg : Config) (counts : Counter) :
    List (String × Int) :=
  (counts.filter (fun p => p.1 ≠ "questions")).map
    (fun p =>
      (p.1,
        if subtract_flag cfg p.1 then
          (cget counts "questions_incl_choices" : Int) - (p.2 : Int)
        else (p.2 : Int)))

/-- One row of the second table of create_summary_table: the cells of module
counter mc, one per global counter key except the modules and main-question
keys, a missing per-module value counting as zero, with the same
subtract-from-total derivation applied inside the module scope. -/
def module_summary_row (cfg : Config) (counts mc : Counter) :
    List (String × Int) :=
  (counts.filter (fun p => p.1 ≠ "modules" ∧ p.1 ≠ "questions")).map
    (fun p =>
      (p.1,
        if subtract_flag cfg p.1 then
          (cget mc "questions_incl_choices" : Int) - (cget mc p.1 : Int)
        else (cget mc p.1 : Int)))

/-- The second table of create_summary_table: one row per module counter. -/
def module_summary_rows (cfg : Config) (counts : Counter)
    (pm : List (String × Counter)) :
    List (String × List (String × Int)) :=
  pm.map (fun p => (p.1, module_summary_row cfg counts p.2))

/-- Modelled from the claim text of C1: the number of questions with
add_this true belonging to modules with add_this true and
exclude_from_count false, across the whole questionnaire. This is the
specification side of the counting law, to be compared with the counter the
traversal computes. -/
def specEnabledQuestionCount (qn : List (String × ModuleSpec)) : Nat :=
  (qn.map (fun km =>
    if km.2.add_this && !km.2.exclude_from_count then
      (km.2.questions.filter (fun kq => kq.2.add_this)).length
    else 0)).sum

theorem cget_cons (k1 : String) (v1 : Nat) (c : Counter) (k' : String) :
    cget ((k1, v1) :: c) k' = if k1 = k' then v1 else cget c k' := by
  by_cases h : k1 = k' <;> simp [cget, alookup, h]

/-- The one counter law the counting proofs need: an update by v changes the
read of exactly the updated key, by exactly v. -/
theorem cget_cupdate (c : Counter) (k : String) (v : Nat) (k' : String) :
    cget (cupdate c k v) k' = cget c k' + (if k' = k then v else 0) := by
  induction c with
  | nil =>
    simp only [cupdate, cget_cons]
    by_cases h : k' = k
    · simp [cget, alookup, h]
    · have h2 : ¬ (k = k') := fun he => h he.symm
      simp [cget, alookup, h, h2]
  | cons p c ih =>
    obtain ⟨k1, v1⟩ := p
    simp only [cupdate]
    by_cases h1 : k1 = k
    · rw [if_pos h1, cget_cons, cget_cons]
      by_cases h2 : k1 = k'
      · have h3 : k' = k := by rw [← h2, h1]
        simp [h2, h3]
      · have h3 : ¬ (k' = k) := fun he => h2 (h1.trans he.symm)
        simp [h2, h3]
    · rw [if_neg h1, cget_cons, cget_cons, ih]
      by_cases h2 : k1 = k'
      · have h3 : ¬ (k' = k) := fun he => h1 (h2.trans he)
        simp [h2, h3]
      · simp [h2]

theorem cget_cupdate_ne (c : Counter) (k : String) (v : Nat) (k' : String)
    (h : k' ≠ k) : cget (cupdate c k v) k' = cget c k' := by
  simp [cget_cupdate, h]

theorem cget_cupdate_self (c : Counter) (k : String) (v : Nat) :
    cget (cupdate c k v) k = cget c k + v := by
  simp [cget_cupdate]

/-- Every key the color scanner can return, matched or fallback, is either a
declared category key or the incoming accumulator. -/
theorem firstMatchAux_key_mem (cfg : Config) (trigs : List (String × TrigVal))
    (l : List (String × ColProp)) (last : Option String) (k : String)
    (h : (firstMatchAux cfg trigs l last).2 = some k) :
    k ∈ l.map Prod.fst ∨ last = some k := by
  induction l generalizing last with
  | nil => right; simpa [firstMatchAux] using h
  | cons p rest ih =>
    obtain ⟨ck, cp⟩ := p
    simp only [firstMatchAux] at h
    by_cases hc : ((alookup trigs ck).map TrigVal.truthy).getD false
        && process_this_colorize cfg cp
    · rw [if_pos hc] at h
      left
      simp at h
      simp [h]
    · rw [if_neg hc] at h
      rcases ih (some ck) h with hm | hl
      · left; simp [hm]
      · left
        simp at hl
        simp [hl]

theorem refersAux_key_mem (cfg : Config) (trigs : List (String × TrigVal))
    (l : List (String × ColProp)) (last : Option String) (k : String)
    (h : (refersAux cfg trigs l last).2 = some k) :
    k ∈ l.map Prod.fst ∨ last = some k := by
  induction l generalizing last with
  | nil => right; simpa [refersAux] using h
  | cons p rest ih =>
    obtain ⟨ck, cp⟩ := p
    have hstep : (refersAux cfg trigs rest (some ck)).2 = some k →
        k ∈ (((ck, cp) :: rest).map Prod.fst) ∨ last = some k := by
      intro h2
      rcases ih (some ck) h2 with hm | hl
      · left; simp [hm]
      · left
        simp at hl
        simp [hl]
    simp only [refersAux] at h
    split at h
    · split at h
      · split at h
        · left
          simp at h
          simp [h]
        · exact hstep h
      · exact hstep h
    · exact hstep h

theorem gcpAux_key_mem (cfg : Config) (trigs : List (String × TrigVal))
    (l : List (String × ColProp)) (last : Option String) (k : String)
    (h : (gcpAux cfg trigs l last).ckey = some k) :
    k ∈ l.map Prod.fst ∨ last = some k := by
  induction l generalizing last with
  | nil => right; simpa [gcpAux] using h
  | cons p rest ih =>
    obtain ⟨ck, cp⟩ := p
    simp only [gcpAux] at h
    by_cases h1 : ¬ process_this_colorize cfg cp
    · rw [if_pos h1] at h
      rcases ih (some ck) h with hm | hl
      · left; simp [hm]
      · left
        simp at hl
        simp [hl]
    · rw [if_neg h1] at h
      by_cases h2 : ((alookup trigs ck).map TrigVal.truthy).getD false
      · rw [if_pos h2] at h
        left
        simp at h
        simp [h]
      · rw [if_neg h2] at h
        rcases ih (some ck) h with hm | hl
        · left; simp [hm]
        · left
          simp at hl
          simp [hl]

/-- A counted question adds exactly one to the reserved question key, as
long as no category, refers-to or increase_counter key aliases it. -/
theorem countQuestion_questions (mk : String)
    (color_local color_key refers_to_label refers_to_key : Option String)
    (inc : Option String) (nv : Nat) (c : Counter)
    (pm : List (String × Counter))
    (hc : ∀ k, color_key = some k → k ≠ "questions")
    (hr : ∀ k, refers_to_key = some k → k ≠ "questions")
    (hi : inc ≠ some "questions") :
    cget (countQuestion mk color_local color_key refers_to_label
      refers_to_key inc nv c pm).1 "questions" = cget c "questions" + 1 := by
  have hck : ¬ (("questions" : String) = color_key.getD "") := by
    cases color_key with
    | none => decide
    | some k => exact fun he => hc k rfl he.symm
  have hrk : ¬ (("questions" : String) = refers_to_key.getD "") := by
    cases refers_to_key with
    | none => decide
    | some k => exact fun he => hr k rfl he.symm
  have ht : ¬ (("questions" : String) = "questions_incl_choices") := by decide
  unfold countQuestion
  cases inc with
  | none =>
    simp only []
    split <;> split <;>
      simp [cget_cupdate, hck, hrk, ht]
  | some ic =>
    have hic : ¬ (("questions" : String) = ic) := by
      intro he
      exact hi (by rw [← he])
    simp only []
    split <;> split <;>
      simp [cget_cupdate, hck, hrk, ht, hic]

/-- One question-loop iteration changes the reserved question count by one
exactly for a counted, enabled question. -/
theorem questionStep_questions (cfg : Config) (mk : String)
    (mColorKey mColorName : Option String) (exclude : Bool) (st st' : MState)
    (kq : String × QuestionSpec)
    (Hck : "questions" ∉ cfg.colorize.map Prod.fst)
    (Hmod : ∀ k, mColorKey = some k → k ∈ cfg.colorize.map Prod.fst)
    (Hinc : kq.2.increase_counter ≠ some "questions")
    (h : questionStep cfg mk mColorKey mColorName exclude st kq
      = Except.ok st') :
    cget st'.bs.counts "questions" = cget st.bs.counts "questions" +
      (if kq.2.add_this && !exclude then 1 else 0) := by
  have hc : ∀ k, (if mColorKey.isNone then get_color_first_match cfg kq.2
      else (mColorName, mColorKey)).2 = some k → k ≠ "questions" := by
    intro k hk he
    subst he
    by_cases hm : mColorKey.isNone
    · rw [if_pos hm] at hk
      rcases firstMatchAux_key_mem cfg kq.2.triggers cfg.colorize none _ hk
        with hmem | hl
      · exact Hck hmem
      · simp at hl
    · rw [if_neg hm] at hk
      exact Hck (Hmod _ hk)
  have hr : ∀ k, (get_refers_to_label cfg kq.2).2 = some k →
      k ≠ "questions" := by
    intro k hk he
    subst he
    rcases refersAux_key_mem cfg kq.2.triggers cfg.colorize none _ hk
      with hmem | hl
    · exact Hck hmem
    · simp at hl
  unfold questionStep at h
  by_cases ha : kq.2.add_this
  · simp only [ha] at h
    rw [if_neg (by simp)] at h
    split at h
    · exact absurd h (by simp)
    · by_cases he : exclude
      · simp only [he] at h
        rw [if_pos trivial] at h
        have hbs : st'.bs.counts = st.bs.counts := by
          cases h
          rfl
        simp [hbs, ha, he]
      · simp only [he] at h
        rw [if_neg (by simp)] at h
        split at h
        · exact absurd h (by simp)
        · rename_i nv hnv
          have hbs : st'.bs.counts = (countQuestion mk
              (if mColorKey.isNone then get_color_first_match cfg kq.2
                else (mColorName, mColorKey)).1
              (if mColorKey.isNone then get_color_first_match cfg kq.2
                else (mColorName, mColorKey)).2
              (get_refers_to_label cfg kq.2).1
              (get_refers_to_label cfg kq.2).2
              kq.2.increase_counter nv st.bs.counts st.bs.pm).1 := by
            cases h
            rfl
          rw [hbs, countQuestion_questions _ _ _ _ _ _ _ _ _ hc hr Hinc]
          simp [ha, he]
  · have ha2 : kq.2.add_this = false := by
      cases hv : kq.2.add_this
      · rfl
      · exact absurd hv ha
    simp only [ha2] at h
    rw [if_pos (by simp)] at h
    have hbs : st'.bs.counts = st.bs.counts := by
      cases h
      rfl
    simp [hbs, ha2]

/-- The question loop of a module adds, when it succeeds, one to the
reserved question key per enabled question, and nothing for an excluded
module. -/
theorem foldQuestions_questions (cfg : Config) (mk : String)
    (mColorKey mColorName : Option String) (exclude : Bool)
    (qs : List (String × QuestionSpec)) (st st' : MState)
    (Hck : "questions" ∉ cfg.colorize.map Prod.fst)
    (Hmod : ∀ k, mColorKey = some k → k ∈ cfg.colorize.map Prod.fst)
    (Hinc : ∀ kq ∈ qs, kq.2.increase_counter ≠ some "questions")
    (h : foldQuestions cfg mk mColorKey mColorName exclude qs st
      = Except.ok st') :
    cget st'.bs.counts "questions" = cget st.bs.counts "questions" +
      (if exclude then 0
        else (qs.filter (fun kq => kq.2.add_this)).length) := by
  induction qs generalizing st with
  | nil =>
    simp only [foldQuestions] at h
    cases h
    simp
  | cons kq rest ih =>
    simp only [foldQuestions] at h
    split at h
    · exact absurd h (by simp)
    · rename_i st1 hstep
      have h1 := questionStep_questions cfg mk mColorKey mColorName exclude
        st st1 kq Hck Hmod (Hinc kq (List.mem_cons_self kq rest)) hstep
      have h2 := ih st1 (fun p hp => Hinc p (List.mem_cons_of_mem kq hp)) h
      rw [h2, h1]
      by_cases he : exclude
      · simp [he]
      · by_cases ha : kq.2.add_this <;>
          simp [he, ha, List.filter] <;> omega

/-- One module-loop iteration adds, when it succeeds, the number of enabled
questions of an enabled counted module to the reserved question key. -/
theorem moduleStep_questions (cfg : Config) (bs bs' : BuildState)
    (km : String × ModuleSpec)
    (Hck : "questions" ∉ cfg.colorize.map Prod.fst)
    (Hinc : ∀ kq ∈ km.2.questions, kq.2.increase_counter ≠ some "questions")
    (h : moduleStep cfg bs km = Except.ok bs') :
    cget bs'.counts "questions" = cget bs.counts "questions" +
      (if km.2.add_this && !km.2.exclude_from_count then
        (km.2.questions.filter (fun kq => kq.2.add_this)).length else 0) := by
  unfold moduleStep at h
  by_cases ha : km.2.add_this
  · simp only [ha] at h
    rw [if_neg (by simp)] at h
    split at h
    · exact absurd h (by simp)
    · rename_i st hfold
      have hmod : ∀ k,
          (if (get_colorize_properties cfg km.2).color_name.isSome then
            (get_colorize_properties cfg km.2).ckey else none) = some k →
          k ∈ cfg.colorize.map Prod.fst := by
        intro k hk
        by_cases hs : (get_colorize_properties cfg km.2).color_name.isSome
        · rw [if_pos hs] at hk
          rcases gcpAux_key_mem cfg km.2.triggers cfg.colorize none k hk
            with hm | hl
          · exact hm
          · exact absurd hl (by simp)
        · rw [if_neg hs] at hk
          exact absurd hk (by simp)
      have h1 := foldQuestions_questions cfg km.1 _ _ km.2.exclude_from_count
        km.2.questions _ st Hck hmod Hinc hfold
      have hbs : bs' = st.bs := by
        cases h
        rfl
      have hqm : ¬ (("questions" : String) = "modules") := by decide
      rw [hbs, h1]
      cases hv : km.2.exclude_from_count
      · simp [hv, ha, cget_cupdate, hqm]
      · simp [hv, ha]
  · have ha2 : km.2.add_this = false := by
      cases hv : km.2.add_this
      · rfl
      · exact absurd hv ha
    simp only [ha2] at h
    rw [if_pos (by simp)] at h
    cases h
    simp [ha2]

/-- The module loop accumulates the enabled-question count of every enabled
counted module. -/
theorem add_all_modules_questions (cfg : Config)
    (qn : List (String × ModuleSpec)) (bs bs' : BuildState)
    (Hck : "questions" ∉ cfg.colorize.map Prod.fst)
    (Hinc : ∀ km ∈ qn, ∀ kq ∈ km.2.questions,
      kq.2.increase_counter ≠ some "questions")
    (h : add_all_modules cfg qn bs = Except.ok bs') :
    cget bs'.counts "questions" = cget bs.counts "questions" +
      specEnabledQuestionCount qn := by
  induction qn generalizing bs with
  | nil =>
    simp only [add_all_modules] at h
    cases h
    simp [specEnabledQuestionCount]
  | cons km rest ih =>
    simp only [add_all_modules] at h
    split at h
    · exact absurd h (by simp)
    · rename_i bs1 hstep
      have h1 := moduleStep_questions cfg bs bs1 km Hck
        (Hinc km (List.mem_cons_self km rest)) hstep
      have h2 := ih bs1 (fun p hp => Hinc p (List.mem_cons_of_mem km hp)) h
      rw [h2, h1]
      simp only [specEnabledQuestionCount, List.map_cons, List.sum_cons]
      by_cases ha : km.2.add_this <;> by_cases he : km.2.exclude_from_count <;>
        simp [ha, he] <;> omega

/-- create_color_latex_command only seeds category keys with zero and so
never changes the read of the reserved question key. -/
theorem colorCommandLoop_questions (cfg : Config)
    (l : List (String × ColProp)) (c c' : Counter)
    (h : colorCommandLoop cfg c l = Except.ok c') :
    cget c' "questions" = cget c "questions" := by
  induction l generalizing c with
  | nil =>
    simp only [colorCommandLoop] at h
    cases h
    rfl
  | cons p rest ih =>
    obtain ⟨ck, cp⟩ := p
    simp only [colorCommandLoop] at h
    by_cases h1 : ¬ process_this_colorize cfg cp
    · rw [if_pos h1] at h
      exact ih c h
    · rw [if_neg h1] at h
      by_cases h2 : ck.data.contains '_'
      · rw [if_pos h2] at h
        exact absurd h (by simp)
      · rw [if_neg h2] at h
        rw [ih _ h]
        by_cases h3 : ck ≠ "dvz"
        · rw [if_pos h3]
          rw [cget_cupdate]
          simp
        · rw [if_neg h3]

/-- C1: for every survey definition whose full document build succeeds, the
global reserved question counter COUNT_QUST_KEY, incremented once per
question, ends up equal to the number of questions with add_this true that
belong to modules with add_this true and exclude_from_count false, across
the whole questionnaire. The two side conditions say that the reserved key
is not aliased by a declared colorize category or an increase_counter
field, which the data model reserves for category keys. -/
theorem C1_question_count (cfg : Config) (qn : List (String × ModuleSpec))
    (bs : BuildState)
    (Hck : "questions" ∉ cfg.colorize.map Prod.fst)
    (Hinc : ∀ km ∈ qn, ∀ kq ∈ km.2.questions,
      kq.2.increase_counter ≠ some "questions")
    (h : buildCounts cfg qn = Except.ok bs) :
    cget bs.counts "questions" = specEnabledQuestionCount qn := by
  unfold buildCounts at h
  split at h
  · exact absurd h (by simp)
  · rename_i c0 hc0
    have h1 := colorCommandLoop_questions cfg cfg.colorize initCounts c0 hc0
    have h2 := add_all_modules_questions cfg qn ⟨c0, [], []⟩ bs Hck Hinc h
    rw [h2]
    simp only []
    rw [h1]
    have : cget initCounts "questions" = 0 := by decide
    rw [this]
    omega

def cfgC1w : Config :=
  { colorize := [("dvz", { color := "rood", label := "DVZ" })] }

def qC1w2 : QuestionSpec :=
  { question := "Q2", type := some "group", choicelines := ["een", "twee"] }

def qnC1w : List (String × ModuleSpec) :=
  [("mod_a",
    { title := "A",
      questions := [("q1", { question := "Q1", type := some "choices" }),
                    ("q2", qC1w2),
                    ("q3", { question := "Q3", add_this := false })] }),
   ("mod_b",
    { title := "B",
      add_this := false,
      questions := [("q4", { question := "Q4" })] }),
   ("mod_c",
    { title := "C",
      exclude_from_count := true,
      questions := [("q5", { question := "Q5", type := some "textbox" })] })]

def bsC1w : BuildState :=
  match buildCounts cfgC1w qnC1w with
  | Except.ok b => b
  | Except.error _ => default

/-- Witness for C1 on a concrete three-module questionnaire. -/
theorem C1_question_count_witness :
    cget bsC1w.counts "questions" = specEnabledQuestionCount qnC1w :=
  C1_question_count cfgC1w qnC1w bsC1w (by decide) (by decide) rfl

def cfgC2 : Config :=
  { colorize := [("seccat", { color := "red", label := "S" }),
                 ("qcat", { color := "blue", label := "Q" })] }

def qC2 : QuestionSpec :=
  { question := "Q",
    type := some "choices",
    sect := some { title := "s", triggers := [("seccat", TrigVal.boolV true)] },
    triggers := [("qcat", TrigVal.boolV true)] }

def qnC2 : List (String × ModuleSpec) :=
  [("m", { title := "M", questions := [("q1", qC2)] })]

def bsC2 : BuildState :=
  match buildCounts cfgC2 qnC2 with
  | Except.ok b => b
  | Except.error _ => default

/-- C2 counterexample: a question inside a section that forces red locally
matches a category whose color is blue, yet the build wraps the question
body in the section color red, not in the local blue: local does not win. -/
theorem C2_counterexample :
    buildCounts cfgC2 qnC2 = Except.ok bsC2 ∧
    bsC2.wraps = [("q1", some "red")] ∧
    get_color_first_match cfgC2 qC2 = (some "blue", some "qcat") ∧
    (some "red" : Option String) ≠ some "blue" :=
  ⟨rfl, rfl, rfl, by decide⟩

/-- C2 as amended: when a section-forced color is active (truthy), the
question body is wrapped in the section-forced color scope, whatever the
locally matched color is: section wins, not local. -/
theorem C2_section_color_wins (cfg : Config) (mk : String)
    (mColorKey mColorName : Option String) (exclude : Bool) (st st' : MState)
    (kq : String × QuestionSpec)
    (hsec : kq.2.sect = none)
    (ha : kq.2.add_this = true)
    (hcas : optTruthy st.cas = true)
    (h : questionStep cfg mk mColorKey mColorName exclude st kq
      = Except.ok st') :
    st'.bs.wraps = st.bs.wraps ++ [(kq.1, st.cas)] := by
  have hw : ∀ loc, wrapColor st.cas loc = st.cas := by
    intro loc
    unfold wrapColor
    rw [if_pos (by simp [hcas]), if_pos hcas]
  unfold questionStep at h
  simp only [hsec, ha] at h
  rw [if_neg (by simp)] at h
  split at h
  · exact absurd h (by simp)
  · by_cases he : exclude
    · simp only [he] at h
      rw [if_pos trivial] at h
      cases h
      simp [hw]
    · simp only [he] at h
      rw [if_neg (by simp)] at h
      split at h
      · exact absurd h (by simp)
      · cases h
        simp [hw]

def stC2w : MState :=
  { bs := { counts := initCounts, pm := [], wraps := [] }, cas := some "red" }

def stC2w' : MState :=
  match questionStep { } "m" none none false stC2w
    ("q", { question := "Q", type := some "choices" }) with
  | Except.ok s => s
  | Except.error _ => default

/-- Witness for the amended C2 at a concrete state with an active section
color. -/
theorem C2_section_color_wins_witness :
    stC2w'.bs.wraps = stC2w.bs.wraps ++ [("q", stC2w.cas)] :=
  C2_section_color_wins { } "m" none none false stC2w stC2w'
    ("q", { question := "Q", type := some "choices" }) rfl rfl (by decide) rfl

def qC3 : QuestionSpec :=
  { question := "Q", type := some "openquestion" }

def qnC3 : List (String × ModuleSpec) :=
  [("m1", { title := "M", questions := [("q1", qC3)] })]

/-- C3: add_question does log and soft-return None for an unrecognized
question type, but the question loop then feeds that None into
Counter.update, so the build of a counted module aborts with TypeError
instead of skipping the question, and the question has already added one to
the reserved question counter first. The claim matches the documented
intent (the docstring of add_question promises an int and the source logs
Skipping); the bare return without a value is the slip. -/
theorem C3_unrecognized_type_crashes :
    add_question { } qC3 = Except.ok none ∧
    buildCounts { } qnC3 =
      Except.error
        "TypeError: unsupported operand types for + : NoneType and int" :=
  ⟨rfl, rfl⟩

/-- C4 counterexample: a rangegroup question with an empty question-line
list yields weight zero, not the claimed minimum of one. -/
theorem C4_counterexample :
    add_range_group_question ([] : List String) [] = Except.ok 0 ∧
    (0 : Nat) ≠ 1 :=
  ⟨rfl, by decide⟩

/-- C4 as amended: for a group question the returned weight equals the
number of enumerated choice lines with a minimum of one (an empty list
yields one), while for a rangegroup question the weight equals the number
of question lines exactly, so an empty list yields zero. The bounds keep
the a) b) enumeration inside the twenty-six ascii letters. -/
theorem C4_group_weights (cfg : Config) (q : QuestionSpec)
    (hd : q.dvz = false)
    (h1 : q.choicelines.length ≤ 26)
    (h2 : q.question_lines.length ≤ 26) :
    (q.type = some "group" →
      add_question cfg q = Except.ok (some (max 1 q.choicelines.length))) ∧
    (q.type = some "rangegroup" →
      add_question cfg q = Except.ok (some q.question_lines.length)) := by
  constructor
  · intro ht
    unfold add_question add_choice_group_question
    rw [ht]
    have hlen : ¬ (q.choicelines.length > 26) := by omega
    simp only [Option.getD]
    rw [if_neg (by simp [QUESTION_TYPES]), if_neg (by decide),
      if_neg (by decide), if_pos trivial, if_neg hlen]
    simp only [hd]
    rw [if_neg (by simp)]
    rcases hc : q.choicelines.length with _ | n
    · simp
    · simp [hc]
  · intro ht
    unfold add_question add_range_group_question
    rw [ht]
    have hlen : ¬ (q.question_lines.length > 26) := by omega
    simp only [Option.getD]
    rw [if_neg (by simp [QUESTION_TYPES]), if_neg (by decide),
      if_neg (by decide), if_neg (by decide), if_neg (by decide),
      if_neg (by decide), if_pos trivial, if_neg hlen]
    simp only [hd]
    rw [if_neg (by simp)]

/-- Witness for the amended C4 on concrete group and rangegroup questions. -/
theorem C4_group_weights_witness :
    add_question { } qC1w2 = Except.ok (some (max 1 qC1w2.choicelines.length)) :=
  (C4_group_weights { } qC1w2 rfl (by decide) (by decide)).1 rfl

/-- C5: in both summary tables, a category declared with
subtract_count_from_total true renders the total-weighted-question count of
its scope minus its raw count in that scope, as exact integer subtraction,
while every other key renders its raw count. Rows exist for the keys present
in the global counter, other than the reserved keys each table skips. -/
theorem C5_subtract_rendering (cfg : Config) (counts mc : Counter)
    (k : String) (v : Nat) :
    ((∀ cp, alookup cfg.colorize k = some cp →
        cp.subtract_count_from_total = true → (k, v) ∈ counts →
        k ≠ "questions" →
        (k, (cget counts "questions_incl_choices" : Int) - (v : Int))
          ∈ global_summary_rows cfg counts)
      ∧ (subtract_flag cfg k = false → (k, v) ∈ counts →
        k ≠ "questions" →
        (k, (v : Int)) ∈ global_summary_rows cfg counts))
    ∧ ((∀ cp, alookup cfg.colorize k = some cp →
        cp.subtract_count_from_total = true → (k, v) ∈ counts →
        k ≠ "modules" → k ≠ "questions" →
        (k, (cget mc "questions_incl_choices" : Int) - (cget mc k : Int))
          ∈ module_summary_row cfg counts mc)
      ∧ (subtract_flag cfg k = false → (k, v) ∈ counts →
        k ≠ "modules" → k ≠ "questions" →
        (k, (cget mc k : Int)) ∈ module_summary_row cfg counts mc)) := by
  refine ⟨⟨?_, ?_⟩, ⟨?_, ?_⟩⟩
  · intro cp hcp hflag hmem hne
    unfold global_summary_rows
    apply List.mem_map.mpr
    refine ⟨(k, v), List.mem_filter.mpr ⟨hmem, by simpa using hne⟩, ?_⟩
    simp [subtract_flag, hcp, hflag]
  · intro hflag hmem hne
    unfold global_summary_rows
    apply List.mem_map.mpr
    refine ⟨(k, v), List.mem_filter.mpr ⟨hmem, by simpa using hne⟩, ?_⟩
    simp [hflag]
  · intro cp hcp hflag hmem hnm hne
    unfold module_summary_row
    apply List.mem_map.mpr
    refine ⟨(k, v), List.mem_filter.mpr ⟨hmem, by simp [hnm, hne]⟩, ?_⟩
    simp [subtract_flag, hcp, hflag]
  · intro hflag hmem hnm hne
    unfold module_summary_row
    apply List.mem_map.mpr
    refine ⟨(k, v), List.mem_filter.mpr ⟨hmem, by simp [hnm, hne]⟩, ?_⟩
    simp [hflag]

def cpC5w : ColProp :=
  { color := "rood", label := "Kleine bedrijven",
    subtract_count_from_total := true }

def cfgC5w : Config := { colorize := [("small", cpC5w)] }

def countsC5w : Counter :=
  [("modules", 2), ("questions", 5), ("questions_incl_choices", 50),
   ("small", 12)]

def mcC5w : Counter :=
  [("questions", 3), ("questions_incl_choices", 20), ("small", 4)]

/-- Witness for C5: the spec example with total 50 and category count 12
renders 38 in the global table, and the per-module derivation renders 20
minus 4. -/
theorem C5_subtract_rendering_witness :
    ("small", (cget countsC5w "questions_incl_choices" : Int) - ((12 : Nat) : Int))
      ∈ global_summary_rows cfgC5w countsC5w ∧
    ("small", (cget mcC5w "questions_incl_choices" : Int) - (cget mcC5w "small" : Int))
      ∈ module_summary_row cfgC5w countsC5w mcC5w :=
  ⟨((C5_subtract_rendering cfgC5w countsC5w mcC5w "small" 12).1).1 cpC5w rfl
      rfl (by decide) (by decide),
    ((C5_subtract_rendering cfgC5w countsC5w mcC5w "small" 12).2).1 cpC5w rfl
      rfl (by decide) (by decide) (by decide)⟩

/-- C6 counterexample: with the unknown prefix foo and a goto containing an
underscore, the matched-choice phrase carries the goto with underscores
removed, not the raw goto string. -/
theorem C6_counterexample :
    get_redirection_string_for_filter
      (some { condition := "Yes", goto := "foo:a_b" }) (some "Yes")
      = "$\\rightarrow$ Ga naar foo:ab" ∧
    "$\\rightarrow$ Ga naar foo:ab" ≠ "$\\rightarrow$ Ga naar " ++ "foo:a_b" :=
  ⟨rfl, by decide⟩

/-- C6 as amended: empty phrase for an absent filter or a non-matching
explicit choice; for a matching choice the goto prefix quest maps to the
question word with the goto kept verbatim, mod and modsec map to the module
and module-section words, and an unknown prefix echoes the goto unmapped;
for every prefix other than quest, underscores are removed from the goto
before it enters the phrase. -/
theorem C6_redirection_phrases (f : FilterSpec) (choice : String) :
    (∀ c : Option String, get_redirection_string_for_filter none c = "") ∧
    (choice ≠ f.condition →
      get_redirection_string_for_filter (some f) (some choice) = "") ∧
    (firstSegment f.goto = "quest" →
      get_redirection_string_for_filter (some f) (some f.condition)
        = "$\\rightarrow$ Ga naar vraag \\ref\x7b" ++ f.goto ++ "\x7d") ∧
    (firstSegment f.goto = "mod" →
      get_redirection_string_for_filter (some f) (some f.condition)
        = "$\\rightarrow$ Ga naar module \\ref\x7b" ++ stripU f.goto ++ "\x7d") ∧
    (firstSegment f.goto = "modsec" →
      get_redirection_string_for_filter (some f) (some f.condition)
        = "$\\rightarrow$ Ga naar module sectie \\ref\x7b" ++ stripU f.goto
          ++ "\x7d") ∧
    (firstSegment f.goto ≠ "quest" → firstSegment f.goto ≠ "mod" →
      firstSegment f.goto ≠ "modsec" →
      get_redirection_string_for_filter (some f) (some f.condition)
        = "$\\rightarrow$ Ga naar " ++ stripU f.goto) := by
  refine ⟨fun c => rfl, ?_, ?_, ?_, ?_, ?_⟩
  · intro hne
    show (if some f.condition = some choice ∨ some choice = none then _
      else "") = ""
    rw [if_neg]
    intro hor
    rcases hor with he | he
    · exact hne (Option.some_injective _ he).symm
    · exact Option.noConfusion he
  · intro hq
    simp [get_redirection_string_for_filter, redirectionPhrase, hq]
  · intro hq
    simp [get_redirection_string_for_filter, redirectionPhrase, hq]
  · intro hq
    simp [get_redirection_string_for_filter, redirectionPhrase, hq]
  · intro h1 h2 h3
    simp [get_redirection_string_for_filter, redirectionPhrase, h1, h2, h3]

/-- Witness for the amended C6 at concrete filters: a non-matching choice
suppresses the phrase and an unknown prefix echoes the stripped goto. -/
theorem C6_redirection_phrases_witness :
    get_redirection_string_for_filter
      (some { condition := "Yes", goto := "xx:a_b" }) (some "No") = "" ∧
    get_redirection_string_for_filter
      (some { condition := "Yes", goto := "xx:a_b" }) (some "Yes")
      = "$\\rightarrow$ Ga naar " ++ stripU "xx:a_b" :=
  ⟨(C6_redirection_phrases { condition := "Yes", goto := "xx:a_b" } "No").2.1
      (by decide),
    (C6_redirection_phrases { condition := "Yes", goto := "xx:a_b" }
      "No").2.2.2.2.2 (by decide) (by decide) (by decide)⟩

def cfgC7 : Config :=
  { colorize := [("alpha", { color := "green", label := "A" }),
                 ("beta", { color := "blue", label := "B" })] }

/-- C7 counterexample: with two declared categories and a question matching
neither, the scanner returns None for the color but the last declared key,
not None, for the category key. -/
theorem C7_counterexample :
    get_color_first_match cfgC7 { question := "x" } = (none, some "beta") ∧
    (some "beta" : Option String) ≠ none :=
  ⟨rfl, by decide⟩

theorem firstMatchAux_no_match (cfg : Config)
    (trigs : List (String × TrigVal)) (l : List (String × ColProp))
    (last0 : Option String)
    (h : (firstMatchAux cfg trigs l last0).1 = none) :
    (firstMatchAux cfg trigs l last0).2 =
      match l.getLast? with
      | some p => some p.1
      | none => last0 := by
  induction l generalizing last0 with
  | nil => simp [firstMatchAux]
  | cons p rest ih =>
    obtain ⟨ck, cp⟩ := p
    simp only [firstMatchAux] at h ⊢
    by_cases hc : ((alookup trigs ck).map TrigVal.truthy).getD false
        && process_this_colorize cfg cp
    · rw [if_pos hc] at h
      exact absurd h (by simp)
    · rw [if_neg hc] at h ⊢
      rw [ih (some ck) h]
      cases rest with
      | nil => rfl
      | cons p2 rest2 => rfl

theorem firstMatchAux_first_eligible (cfg : Config)
    (trigs : List (String × TrigVal)) (pre : List (String × ColProp))
    (ck : String) (cp : ColProp) (rest : List (String × ColProp))
    (hpre : ∀ p ∈ pre,
      ¬ (((alookup trigs p.1).map TrigVal.truthy).getD false
        && process_this_colorize cfg p.2) = true)
    (hck : (((alookup trigs ck).map TrigVal.truthy).getD false
      && process_this_colorize cfg cp) = true) :
    ∀ last0, firstMatchAux cfg trigs (pre ++ (ck, cp) :: rest) last0
      = (some (if cp.apply_color then cp.color else "black"), some ck) := by
  induction pre with
  | nil =>
    intro last0
    simp only [List.nil_append, firstMatchAux]
    rw [if_pos hck]
  | cons p pre ih =>
    intro last0
    have h1 := hpre p (List.mem_cons_self p pre)
    obtain ⟨k1, c1⟩ := p
    simp only [List.cons_append, firstMatchAux]
    rw [if_neg (by simpa using h1)]
    exact ih (fun p2 hp2 => hpre p2 (List.mem_cons_of_mem _ hp2)) (some k1)

/-- C7 as amended: the scanner honours declaration order, skips ineligible
categories, returns the first eligible category with a truthy field (with
the neutral black sentinel in place of the color when apply_color is false,
the key still reported as matched), and when nothing matches it returns
None for the color paired with the LAST declared category key, or None only
when no categories are declared at all. -/
theorem C7_first_match_scan (cfg : Config) (q : QuestionSpec)
    (pre : List (String × ColProp)) (ck : String) (cp : ColProp)
    (rest : List (String × ColProp)) :
    (cfg.colorize = [] → get_color_first_match cfg q = (none, none)) ∧
    ((get_color_first_match cfg q).1 = none →
      (get_color_first_match cfg q).2 =
        match cfg.colorize.getLast? with
        | some p => some p.1
        | none => none) ∧
    (cfg.colorize = pre ++ (ck, cp) :: rest →
      (∀ p ∈ pre,
        ¬ (((alookup q.triggers p.1).map TrigVal.truthy).getD false
          && process_this_colorize cfg p.2) = true) →
      (((alookup q.triggers ck).map TrigVal.truthy).getD false
        && process_this_colorize cfg cp) = true →
      get_color_first_match cfg q =
        (some (if cp.apply_color then cp.color else "black"), some ck)) := by
  refine ⟨?_, ?_, ?_⟩
  · intro h
    unfold get_color_first_match
    rw [h]
    rfl
  · intro h
    exact firstMatchAux_no_match cfg q.triggers cfg.colorize none h
  · intro hsplit hpre hck
    unfold get_color_first_match
    rw [hsplit]
    exact firstMatchAux_first_eligible cfg q.triggers pre ck cp rest
      hpre hck none

def cfgC7w : Config :=
  { colorize := [("alpha", { color := "green", label := "A" }),
                 ("beta", { color := "blue", label := "B",
                            apply_color := false })] }

def qC7w : QuestionSpec :=
  { question := "x", triggers := [("beta", TrigVal.boolV true)] }

/-- Witness for the amended C7: the second category matches while the first
does not, and its apply_color false turns the returned color into the black
sentinel with the key still reported. -/
theorem C7_first_match_scan_witness :
    get_color_first_match cfgC7w qC7w =
      (some (if ({ color := "blue", label := "B", apply_color := false }
        : ColProp).apply_color then "blue" else "black"), some "beta") :=
  (C7_first_match_scan cfgC7w qC7w
      [("alpha", { color := "green", label := "A" })] "beta"
      { color := "blue", label := "B", apply_color := false } []).2.2
    rfl (by decide) (by decide)

/-- C8: the module-label function strips the underscore word separator so
that the two spellings collide, while the question-label function performs
no stripping and keeps them distinct; both are plain functions of their
argument. -/
theorem C8_label_asymmetry :
    label_module "small_business" = label_module "smallbusiness" ∧
    label_question "small_business" ≠ label_question "smallbusiness" :=
  ⟨by decide, by decide⟩

/-- C9 counterexample: a declared category with an underscore in its key
whose add_this flag is off is skipped before the underscore check, so the
build of the empty questionnaire completes without any error. -/
theorem C9_counterexample :
    ("bad_key".data.contains '_') = true ∧
    buildCounts
      { colorize := [("bad_key", { color := "red", add_this := false })] } []
      = Except.ok ⟨initCounts, [], []⟩ :=
  ⟨by decide, rfl⟩

theorem colorCommandLoop_underscore (cfg : Config)
    (l : List (String × ColProp)) (c : Counter)
    (h : ∃ p ∈ l, process_this_colorize cfg p.2 = true
      ∧ p.1.data.contains '_' = true) :
    colorCommandLoop cfg c l =
      Except.error "ValueError: No _ allowed in the color keys" := by
  induction l generalizing c with
  | nil => simp at h
  | cons p rest ih =>
    obtain ⟨q, hq, hel, hus⟩ := h
    obtain ⟨ck, cp⟩ := p
    simp only [colorCommandLoop]
    cases hq with
    | head =>
      rw [if_neg (by simpa using hel), if_pos (by simpa using hus)]
    | tail _ hq =>
      by_cases h1 : ¬ process_this_colorize cfg cp
      · rw [if_pos h1]
        exact ih c ⟨q, hq, hel, hus⟩
      · rw [if_neg h1]
        by_cases h2 : ck.data.contains '_'
        · rw [if_pos h2]
        · rw [if_neg h2]
          exact ih _ ⟨q, hq, hel, hus⟩

/-- C9 as amended: a declared colorize category whose key contains an
underscore makes the document setup raise the fatal ValueError before the
module traversal begins, with no counters or output produced, provided the
category passes the eligibility gate; an ineligible category is skipped
before the check and raises nothing. -/
theorem C9_underscore_fatal (cfg : Config)
    (qn : List (String × ModuleSpec))
    (h : ∃ p ∈ cfg.colorize, process_this_colorize cfg p.2 = true
      ∧ p.1.data.contains '_' = true) :
    buildCounts cfg qn =
      Except.error "ValueError: No _ allowed in the color keys" := by
  unfold buildCounts create_color_latex_command
  rw [colorCommandLoop_underscore cfg cfg.colorize initCounts h]

/-- Witness for the amended C9: one eligible category keyed a_b aborts the
build of a one-module questionnaire. -/
theorem C9_underscore_fatal_witness :
    buildCounts { colorize := [("a_b", { color := "red" })] }
      [("m", { title := "M" })] =
      Except.error "ValueError: No _ allowed in the color keys" :=
  C9_underscore_fatal
    { colorize := [("a_b", { color := "red" })] } [("m", { title := "M" })]
    ⟨("a_b", { color := "red" }), by decide, by decide, by decide⟩

theorem append_pos_left (a b : String) (h : 0 < a.length) :
    0 < (a ++ b).length := by
  rw [String.length_append]
  omega

theorem append_ne_empty_left (a b : String) (h : 0 < a.length) :
    a ++ b ≠ "" := by
  intro he
  have h2 := congrArg String.length he
  rw [String.length_append] at h2
  have h3 : ("" : String).length = 0 := rfl
  omega

theorem redirectionPhrase_ne_empty (f : FilterSpec) :
    redirectionPhrase f ≠ "" := by
  have harrow : 0 < ("$\\rightarrow$ Ga naar " : String).length := by decide
  simp only [redirectionPhrase]
  split
  · exact append_ne_empty_left _ _
      (append_pos_left _ _ (append_pos_left _ _
        (append_pos_left _ _ harrow)))
  · exact append_ne_empty_left _ _ harrow

/-- C10: called without a selected choice, as the quantity and group
renderers do, the redirection resolver emits the same full phrase as for a
matching choice, whatever the condition value is, and that phrase is never
empty: the condition test only suppresses the phrase for an explicit
non-matching choice. -/
theorem C10_none_choice_full_phrase (f : FilterSpec) :
    get_redirection_string_for_filter (some f) none
      = get_redirection_string_for_filter (some f) (some f.condition) ∧
    get_redirection_string_for_filter (some f) none ≠ "" := by
  have h1 : get_redirection_string_for_filter (some f) none
      = redirectionPhrase f := by
    show (if some f.condition = (none : Option String)
        ∨ (none : Option String) = none then redirectionPhrase f else "")
      = redirectionPhrase f
    rw [if_pos (Or.inr rfl)]
  have h2 : get_redirection_string_for_filter (some f) (some f.condition)
      = redirectionPhrase f := by
    show (if some f.condition = some f.condition
        ∨ (some f.condition : Option String) = none then redirectionPhrase f
      else "") = redirectionPhrase f
    rw [if_pos (Or.inl rfl)]
  refine ⟨h1.trans h2.symm, ?_⟩
  rw [h1]
  exact redirectionPhrase_ne_empty f

/-- Witness for C10 at a concrete filter whose condition matches nothing the
caller supplies. -/
theorem C10_none_choice_full_phrase_witness :
    get_redirection_string_for_filter
        (some { condition := "Nooit", goto := "quest:q9" }) none
      = get_redirection_string_for_filter
        (some { condition := "Nooit", goto := "quest:q9" }) (some "Nooit") ∧
    get_redirection_string_for_filter
        (some { condition := "Nooit", goto := "quest:q9" }) none ≠ "" :=
  C10_none_choice_full_phrase { condition := "Nooit", goto := "quest:q9" }

end SurveyMaker
